import Mathlib

/-!
Shallow embedding of the singletact-programing-jig firmware core
(animation scheduler, sparkle animation source, procedural colour mode
generator, button hold classifier, fixed-point maths) together with
proofs of the specification's testable properties.

Machine integers are modelled as `Nat` (with explicit `% 2^w` where the
source's wrapping/casting behaviour matters); `f64` values appearing in
the maths module are modelled as exact rationals `ℚ`; fallible
operations (panics) are modelled with `Option`.
-/

/-- An RGB pixel (`smart_leds::RGB8`): three 8-bit channels, modelled as
naturals intended to lie below 256.  `RGB8::default()` is all zeroes. -/
structure RGB8 where
  r : Nat
  g : Nat
  b : Nat
deriving DecidableEq, Repr

instance : Inhabited RGB8 := ⟨⟨0, 0, 0⟩⟩

/-- `animations.rs::set_brightness`: scale a pixel by `brightness/255`.
The source special-cases 0 and 255, and otherwise computes each channel
as `((channel as u16 * brightness as u16) / 255) as u8`; the `u16`
multiplication is modelled by `% 2^16` and the final `as u8` cast by
`% 2^8`. -/
def set_brightness (brightness : Nat) (pixel : RGB8) : RGB8 :=
  if brightness = 0 then ⟨0, 0, 0⟩
  else if brightness = 255 then pixel
  else
    { r := ((pixel.r * brightness) % 65536 / 255) % 256
      g := ((pixel.g * brightness) % 65536 / 255) % 256
      b := ((pixel.b * brightness) % 65536 / 255) % 256 }

/-- `animations.rs::clip`: clamp an `i16` into `0..=255`. -/
def clip (v : Int) : Nat :=
  if v < 0 then 0 else if v > 255 then 255 else v.toNat

/-- `animations.rs::clip_min`: clamp from below. -/
def clip_min (v : Int) (min : Nat) : Nat :=
  if v < (min : Int) then min else v.toNat

section Button

/-- `tasks/button.rs::ButtonEvent`. -/
inductive ButtonEvent where
  | Press
  | HoldHalfSecond
  | HoldFullSecond
deriving DecidableEq, Repr

/-- Embassy-time ticks per millisecond.  The timer is an external
collaborator (esp-hal-embassy drives embassy-time at 1 MHz), so
`Duration::from_millis(m)` is `m * 1000` ticks. -/
def ticksPerMs : Nat := 1000

/-- The classification performed by `tasks/button.rs::handle_button`
after a press-release cycle, as a function of the held duration in
timer ticks (`duration_pressed`).  `none` models the `continue` branch:
no event is published. -/
def classifyButton (d : Nat) : Option ButtonEvent :=
  if d > 25000 then
    some (if d > 1000 * ticksPerMs then ButtonEvent.HoldFullSecond
          else if d > 500 * ticksPerMs then ButtonEvent.HoldHalfSecond
          else ButtonEvent.Press)
  else none

end Button

/-- The seeded pseudo-random generator carried by a sparkle animation.
Modelled from the spec: the concrete PRNG (the `fastrand` crate seeded
from the hardware clock) is an out-of-scope external collaborator
(spec §1: "the specific hardware timer/RNG sources"); it is modelled as
a deterministic state-threaded generator.  `rngNext` advances the
64-bit state. -/
def rngNext (s : Nat) : Nat :=
  (s * 6364136223846793005 + 1442695040888963407) % 2 ^ 64

/-- One draw of `rng.u8(0..255)`: a value in `[0, 255)` (the range end
is exclusive in the source) together with the advanced state. -/
def rngU8 (s : Nat) : Nat × Nat :=
  let s2 := rngNext s
  ((s2 / 2 ^ 33) % 255, s2)

/-- Modelled from the spec: the strip-length constant `LED_STRING_SIZE`
referred to by `drivers/neopixel.rs` lives in the other architectural
variant's crate root, which is not under src; the spec's end-to-end
scenario fixes strip length 1. -/
def LED_STRING_SIZE : Nat := 1

/-- `drivers/neopixel.rs::LedBuffer`: one full strip frame,
`[RGB8; LED_STRING_SIZE]`. -/
abbrev LedBuffer := List RGB8

/-- `animations.rs::SparkleAnimation`: base colour, optional expiry
instant (ticks), and the PRNG state. -/
structure SparkleAnimation where
  colour : RGB8
  expires : Option Nat
  rng : Nat
deriving DecidableEq, Repr

/-- Produce the per-position sparkle pixels: for each of `n` strip
positions draw a random brightness and scale the base colour by it,
threading the PRNG state (the `for led in buffer.iter_mut()` loop of
`SparkleAnimation::next`). -/
def sparkleFrame : Nat → RGB8 → Nat → LedBuffer × Nat
  | 0, _, rng => ([], rng)
  | n + 1, colour, rng =>
    let (b, rng1) := rngU8 rng
    let (rest, rng2) := sparkleFrame n colour rng1
    (set_brightness b colour :: rest, rng2)

/-- `Iterator::next` for `SparkleAnimation` (`animations.rs` lines
81-102): done iff an expiry exists and the current instant `now` is not
before it; when not done, emit a frame of randomly scaled pixels.  The
current instant is passed explicitly (`Instant::now()` is an external
clock collaborator). -/
def SparkleAnimation.next (s : SparkleAnimation) (now : Nat) :
    Option LedBuffer × SparkleAnimation :=
  let done : Bool :=
    match s.expires with
    | some exp => if now < exp then false else true
    | none => false
  if done then (none, s)
  else
    let (buf, rng2) := sparkleFrame LED_STRING_SIZE s.colour s.rng
    (some buf, { s with rng := rng2 })

/-- `Interruptable for SparkleAnimation`: interruptable iff it has no
expiry. -/
def SparkleAnimation.isInterruptable (s : SparkleAnimation) : Bool :=
  s.expires.isNone

/-- `SparkleAnimation::new`: seed the PRNG from the clock reading and
turn the optional ttl into an absolute expiry instant. -/
def SparkleAnimation.new (now : Nat) (colour : RGB8) (ttl : Option Nat) :
    SparkleAnimation :=
  { colour := colour, expires := ttl.map (fun t => now + t), rng := now }

/-- `animations.rs::Animation`: the closed animation variant set. -/
inductive Animation where
  | Sparkle (s : SparkleAnimation)
deriving DecidableEq, Repr

/-- `animations.rs::is_interruptable`. -/
def is_interruptable (a : Animation) : Bool :=
  match a with
  | .Sparkle s => s.isInterruptable

/-- `animations.rs::next_buffer`, with the state threading of `&mut`
made explicit: returns the produced frame (if any) and the updated
animation. -/
def next_buffer (now : Nat) (a : Animation) : Option LedBuffer × Animation :=
  match a with
  | .Sparkle s =>
    let (b, s2) := s.next now
    (b, .Sparkle s2)

/-- The scheduler state owned by `tasks/display.rs::display_task`:
running flag, pending-animation queue (front = `peek`/`dequeue` end),
current animation, brightness and torch flag. -/
structure CoordState where
  running : Bool
  queue : List Animation
  current : Animation
  brightness : Nat
  torch : Bool
deriving DecidableEq, Repr

/-- The observable LED-hardware effects of one scheduling tick:
the frame passed to `led.update_from_buffer` (if any) and whether
`led.all_off` was called. -/
structure TickOutput where
  emitted : Option LedBuffer
  allOff : Bool
deriving DecidableEq, Repr

/-- One `Either::First` (ticker) arm of the `display_task` loop
(`tasks/display.rs` lines 117-176): the five-way match on
`(next_buffer(&mut current), queue.peek(), is_interruptable(&current))`,
with the same pattern order as the source.  Note the scrutinee call to
`next_buffer` already advances the current animation before the match
decides. -/
def tickStep (now : Nat) (st : CoordState) : TickOutput × CoordState :=
  if st.running then
    let (buf, cur1) := next_buffer now st.current
    match buf, st.queue.head?, is_interruptable cur1 with
    | _, some a, true =>
      let (b2, cur2) := next_buffer now a
      (⟨b2, false⟩, { st with current := cur2, queue := st.queue.tail })
    | some b, none, _ => (⟨some b, false⟩, { st with current := cur1 })
    | some b, some _, false => (⟨some b, false⟩, { st with current := cur1 })
    | none, none, _ =>
      let (b3, cur3) := next_buffer now cur1
      (⟨b3, true⟩, { st with current := cur3 })
    | none, some a, _ =>
      let (b2, cur2) := next_buffer now a
      (⟨b2, false⟩, { st with current := cur2, queue := st.queue.tail })
  else (⟨none, false⟩, st)

section Config

/-- `lib.rs::RgbBrightness`. -/
inductive RgbBrightness where
  | Low
  | Medium
  | High
  | Max
deriving DecidableEq, Repr

/-- The discriminant values of `RgbBrightness` (`as u8`). -/
def RgbBrightness.val : RgbBrightness → Nat
  | .Low => 10
  | .Medium => 100
  | .High => 200
  | .Max => 255

/-- `lib.rs::RgbRate`. -/
inductive RgbRate where
  | VerySlow
  | Slow
  | Moderate
  | Fast
  | VeryFast
deriving DecidableEq, Repr

/-- The discriminant values of `RgbRate` (`as u8`): 1, 3, 7, 20, 55. -/
def RgbRate.val : RgbRate → Nat
  | .VerySlow => 1
  | .Slow => 3
  | .Moderate => 7
  | .Fast => 20
  | .VeryFast => 55

/-- `lib.rs::RgbMode`.  The `f32` rate of `SineCycle` is modelled as an
exact rational. -/
inductive RgbMode where
  | SineCycle (rate : ℚ)
  | Continuous (rate : Nat)
  | Random (rate : Nat)
  | Fibonacci (rate : Nat)
  | Static (colour : RGB8)
deriving DecidableEq, Repr

/-- `lib.rs::RgbConfig`: the shared mode configuration. -/
structure RgbConfig where
  rgb_mode : RgbMode
  rgb_brightness : RgbBrightness
  rgb_rate_modifier : RgbRate
deriving DecidableEq, Repr

/-- `RgbConfig::set_mode`: replaces only the `rgb_mode` field. -/
def RgbConfig.set_mode (cfg : RgbConfig) (m : RgbMode) : RgbConfig :=
  { cfg with rgb_mode := m }

end Config

/-- The two exit paths of the `handle_button` hold sequence
(`tasks/button.rs` lines 36-61): the button is released during the
second 500 ms window, or only after the full second has elapsed. -/
inductive HoldRelease where
  | duringSecondWindow
  | afterFullSecond
deriving DecidableEq, Repr

/-- The successive values taken by the shared configuration during the
hold sequence: first `set_mode(Static(190,240,255))`; on the
full-second path additionally `set_mode(Static(0,0,255))`; finally
`set_mode(previous_mode)` on every path. -/
def holdSequenceTrace (cfg : RgbConfig) (r : HoldRelease) : List RgbConfig :=
  let c1 := cfg.set_mode (RgbMode.Static ⟨190, 240, 255⟩)
  match r with
  | .duringSecondWindow => [c1, c1.set_mode cfg.rgb_mode]
  | .afterFullSecond =>
    let c2 := c1.set_mode (RgbMode.Static ⟨0, 0, 255⟩)
    [c1, c2, c2.set_mode cfg.rgb_mode]

/-- The configuration left behind when the hold sequence finishes. -/
def holdSequenceFinal (cfg : RgbConfig) (r : HoldRelease) : RgbConfig :=
  let c1 := cfg.set_mode (RgbMode.Static ⟨190, 240, 255⟩)
  match r with
  | .duringSecondWindow => c1.set_mode cfg.rgb_mode
  | .afterFullSecond =>
    (c1.set_mode (RgbMode.Static ⟨0, 0, 255⟩)).set_mode cfg.rgb_mode

/-- The write-suppression stage of one `handle_neopixel` loop iteration
(`tasks/neopixel.rs` lines 81-92), as a function of the colour computed
by the mode match: `none` computed models the `continue` branches of
the rate-limited modes (no colour reached the diff); otherwise, if the
colour equals the previously written one nothing is written, else it is
written and becomes the new previous colour.  Result: the hardware
write issued this iteration (if any) and the new `prev_colour`. -/
def neopixelIteration (prev : RGB8) (computed : Option RGB8) :
    Option RGB8 × RGB8 :=
  match computed with
  | none => (none, prev)
  | some c => if c = prev then (none, prev) else (some c, c)

/-- The list of hardware writes issued across consecutive iterations
with the given computed colours, threading `prev_colour`. -/
def neopixelWrites (prev : RGB8) : List (Option RGB8) → List RGB8
  | [] => []
  | c :: cs =>
    match neopixelIteration prev c with
    | (some col, prev2) => col :: neopixelWrites prev2 cs
    | (none, prev2) => neopixelWrites prev2 cs

/-- The update-period expression `5000 / (rate * rate_multiplier as
u32)` of the `Random`/`Fibonacci` arms (`tasks/neopixel.rs` lines 53
and 67); the `u32` multiplication wraps at `2^32`, and `none` models
the Rust division-by-zero panic when the product is zero. -/
def updatePeriod (rate mult : Nat) : Option Nat :=
  let prod := (rate * mult) % 2 ^ 32
  if prod = 0 then none else some (5000 / prod)

/-- The rate-limiting test `time % (5000 / (rate * rate_multiplier)) ==
0`; `none` models a panic (division or remainder by zero). -/
def rateLimitedGate (nowMs rate mult : Nat) : Option Bool :=
  match updatePeriod rate mult with
  | none => none
  | some p => if p = 0 then none else some (decide (nowMs % p = 0))

section Maths

/-- `maths.rs::factorial` (same value as the source's ascending
`while` product). -/
def factorial : Nat → Nat
  | 0 => 1
  | n + 1 => factorial n * (n + 1)

/-- `maths.rs::factorial_reciprocal`, with `f64` modelled as `ℚ`. -/
def factorial_reciprocal (x : Nat) : ℚ :=
  1 / (factorial x : ℚ)

/-- `maths.rs::_sin`: the degree-9 Maclaurin polynomial. -/
def sinPoly (x : ℚ) : ℚ :=
  let x2 := x * x
  let x3 := x2 * x
  let x5 := x3 * x2
  let x7 := x5 * x2
  let x9 := x7 * x2
  x - factorial_reciprocal 3 * x3 + factorial_reciprocal 5 * x5 -
    factorial_reciprocal 7 * x7 + factorial_reciprocal 9 * x9

/-- The exact rational value of the `f64` constant
`core::f64::consts::PI`. -/
def piF64 : ℚ := 884279719003555 / 2 ^ 48

/-- The exact rational value of the `f64` constant
`core::f64::consts::TAU` (twice `piF64`, exact in `f64`). -/
def tauF64 : ℚ := 884279719003555 / 2 ^ 47

/-- The exact rational value of the `f64` constant
`core::f64::consts::FRAC_PI_2` (half of `piF64`, exact in `f64`). -/
def piOver2F64 : ℚ := 884279719003555 / 2 ^ 49

/-- The range-reduction loop `while x >= tau { x -= tau; }` of
`maths.rs::sin`. -/
def reduceTau (x : ℚ) : ℚ :=
  if h : tauF64 ≤ x then reduceTau (x - tauF64) else x
termination_by (⌊x / tauF64⌋).toNat
decreasing_by
  have htau : (0 : ℚ) < tauF64 := by norm_num [tauF64]
  have h1 : (1 : ℚ) ≤ x / tauF64 := (one_le_div htau).mpr h
  have hfl : (1 : ℤ) ≤ ⌊x / tauF64⌋ := Int.le_floor.mpr (by push_cast; linarith)
  have heq : (x - tauF64) / tauF64 = x / tauF64 - 1 := by
    rw [sub_div, div_self (ne_of_gt htau)]
  have hfl2 : ⌊(x - tauF64) / tauF64⌋ = ⌊x / tauF64⌋ - 1 := by
    rw [heq]
    exact_mod_cast Int.floor_sub_int (x / tauF64) 1
  simp only [hfl2]
  omega

/-- The Rust saturating cast `f64 as u8` (negative values clamp to 0,
values above 255 clamp to 255, otherwise truncate toward zero). -/
def f64ToU8 (q : ℚ) : Nat :=
  if q < 0 then 0 else min 255 ⌊q⌋.toNat

/-- `maths.rs::sin` (lines 32-56): range-reduce modulo 2π, shift the
third/fourth quadrant down by π while recording the sign `multiplier`,
mirror the second quadrant onto the first, and scale by
`multiplier as u8 as f64` — the source's cast chain, modelled by
`f64ToU8`. -/
def sinF64 (x : ℚ) : ℚ :=
  let x1 := reduceTau x
  let x2 := if piF64 < x1 then x1 - piF64 else x1
  let multiplier : ℚ := if piF64 < x1 then -1 else 1
  (f64ToU8 multiplier : ℚ) *
    (if x2 ≤ piOver2F64 then sinPoly x2 else sinPoly (piF64 - x2))

/-- `maths.rs::FibonacciWrapped`: wrapping-u8 Fibonacci stepper. -/
structure FibonacciWrapped where
  num1 : Nat
  num2 : Nat
deriving DecidableEq, Repr

/-- `FibonacciWrapped::next`: `num1.wrapping_add(num2)` and shift. -/
def FibonacciWrapped.next (f : FibonacciWrapped) : Nat × FibonacciWrapped :=
  let nxt := (f.num1 + f.num2) % 256
  (nxt, { num1 := f.num2, num2 := nxt })

end Maths

/-- Helper: advancing an animation with `next_buffer` never changes its
interruptability (the expiry field is preserved by `next`). -/
theorem next_buffer_preserves_interruptable (now : Nat) (a : Animation) :
    is_interruptable (next_buffer now a).2 = is_interruptable a := by
  cases a with
  | Sparkle s =>
    simp only [next_buffer, SparkleAnimation.next]
    cases hexp : s.expires with
    | none => simp [is_interruptable, SparkleAnimation.isInterruptable, hexp]
    | some exp =>
      by_cases h : now < exp <;>
        simp [is_interruptable, SparkleAnimation.isInterruptable, hexp, h]

/-- Helper: the non-swap tick.  If the current animation is not
interruptable and still produces a frame, that frame is emitted, the
queue is untouched, and the current animation is simply advanced. -/
theorem tickStep_keep (now : Nat) (st : CoordState) (b : LedBuffer)
    (hrun : st.running = true)
    (hint : is_interruptable st.current = false)
    (hsome : (next_buffer now st.current).1 = some b) :
    (tickStep now st).1.emitted = some b ∧
    (tickStep now st).2.queue = st.queue ∧
    (tickStep now st).2.current = (next_buffer now st.current).2 := by
  have hpres := next_buffer_preserves_interruptable now st.current
  rcases hnb : next_buffer now st.current with ⟨buf, cur1⟩
  rw [hnb] at hpres hsome
  simp only at hsome
  have hcur1 : is_interruptable cur1 = false := by rw [hpres, hint]
  cases hq : st.queue with
  | nil => simp [tickStep, hrun, hnb, hq, hsome]
  | cons a rest => simp [tickStep, hrun, hnb, hq, hsome, hcur1]

/-- C7, brightness scaling: `set_brightness 0 c` is black,
`set_brightness 255 c = c`, and for `0 < b < 255` with in-range
channels each output channel is `(channel * b) / 255` with truncating
division — the intermediate `u16` product never overflows, so the
`% 2^16` and `% 2^8` of the embedding vanish. -/
theorem set_brightness_spec (b : Nat) (p : RGB8)
    (hr : p.r < 256) (hg : p.g < 256) (hb : p.b < 256) :
    set_brightness 0 p = ⟨0, 0, 0⟩ ∧
    set_brightness 255 p = p ∧
    (0 < b → b < 255 →
      set_brightness b p = ⟨p.r * b / 255, p.g * b / 255, p.b * b / 255⟩) := by
  refine ⟨rfl, rfl, fun hb0 hb255 => ?_⟩
  have hbne : b ≠ 0 := Nat.pos_iff_ne_zero.mp hb0
  have h255 : b ≠ 255 := Nat.ne_of_lt hb255
  have key : ∀ c : Nat, c < 256 → ((c * b) % 65536 / 255) % 256 = c * b / 255 := by
    intro c hc
    have hle : c * b ≤ 255 * 254 := Nat.mul_le_mul (by omega) (by omega)
    have hmul : c * b < 65536 := by omega
    have hdiv : c * b / 255 < 256 := by
      have := Nat.div_le_div_right (c := 255) hle
      omega
    rw [Nat.mod_eq_of_lt hmul, Nat.mod_eq_of_lt hdiv]
  simp only [set_brightness, if_neg hbne, if_neg h255]
  rw [key p.r hr, key p.g hg, key p.b hb]

/-- Witness for C7 at `b = 128`, `p = (200, 100, 50)`. -/
theorem set_brightness_spec_witness :
    set_brightness 0 ⟨200, 100, 50⟩ = ⟨0, 0, 0⟩ ∧
    set_brightness 255 ⟨200, 100, 50⟩ = ⟨200, 100, 50⟩ ∧
    set_brightness 128 ⟨200, 100, 50⟩ = ⟨200 * 128 / 255, 100 * 128 / 255, 50 * 128 / 255⟩ := by
  obtain ⟨h1, h2, h3⟩ :=
    set_brightness_spec 128 ⟨200, 100, 50⟩ (by decide) (by decide) (by decide)
  exact ⟨h1, h2, h3 (by decide) (by decide)⟩

/-- C3, button hold classification: a duration at most 25000 ticks
publishes nothing; one over the threshold but at most 500 ms publishes
`Press` (tap); over 500 ms and at most 1000 ms publishes
`HoldHalfSecond`; over 1000 ms publishes `HoldFullSecond`. -/
theorem classifyButton_spec (d : Nat) :
    (d ≤ 25000 → classifyButton d = none) ∧
    (25000 < d → d ≤ 500 * ticksPerMs → classifyButton d = some ButtonEvent.Press) ∧
    (500 * ticksPerMs < d → d ≤ 1000 * ticksPerMs →
      classifyButton d = some ButtonEvent.HoldHalfSecond) ∧
    (1000 * ticksPerMs < d → classifyButton d = some ButtonEvent.HoldFullSecond) := by
  refine ⟨fun h => ?_, fun h1 h2 => ?_, fun h1 h2 => ?_, fun h1 => ?_⟩ <;>
    simp only [classifyButton, ticksPerMs] at * <;>
    (first
      | (rw [if_neg]; omega)
      | (rw [if_pos (by omega)]
         repeat' first
           | rw [if_neg (by omega)]
           | rw [if_pos (by omega)]))

/-- Witness for C3 at durations 10, 30000, 600000 and 2000000 ticks. -/
theorem classifyButton_spec_witness :
    classifyButton 10 = none ∧
    classifyButton 30000 = some ButtonEvent.Press ∧
    classifyButton 600000 = some ButtonEvent.HoldHalfSecond ∧
    classifyButton 2000000 = some ButtonEvent.HoldFullSecond :=
  ⟨(classifyButton_spec 10).1 (by decide),
   (classifyButton_spec 30000).2.1 (by decide) (by decide),
   (classifyButton_spec 600000).2.2.1 (by decide) (by decide),
   (classifyButton_spec 2000000).2.2.2 (by decide)⟩

/-- C4, sticky termination: once `next_buffer` (i.e. `produce_next_frame`)
returns `none`, every later call on the resulting animation state also
returns `none`, provided the clock reading does not decrease. -/
theorem animation_sticky_termination (a : Animation) (now now2 : Nat)
    (hmono : now ≤ now2) (hnone : (next_buffer now a).1 = none) :
    (next_buffer now2 (next_buffer now a).2).1 = none := by
  cases a with
  | Sparkle s =>
    cases hexp : s.expires with
    | none =>
      simp [next_buffer, SparkleAnimation.next, hexp] at hnone
    | some exp =>
      by_cases hlt : now < exp
      · simp [next_buffer, SparkleAnimation.next, hexp, hlt] at hnone
      · have h2 : ¬ now2 < exp := by omega
        simp [next_buffer, SparkleAnimation.next, hexp, hlt, h2]

/-- Witness for C4: a sparkle with a 10-tick ttl created at time 0 is
already terminated at time 50 and stays terminated at time 60. -/
theorem animation_sticky_termination_witness :
    50 ≤ 60 ∧
    (next_buffer 60
      (next_buffer 50
        (Animation.Sparkle (SparkleAnimation.new 0 ⟨0, 255, 0⟩ (some 10)))).2).1 = none :=
  ⟨by decide,
   animation_sticky_termination
     (Animation.Sparkle (SparkleAnimation.new 0 ⟨0, 255, 0⟩ (some 10)))
     50 60 (by decide) (by decide)⟩

/-- C8, interruptability invariant: a sparkle constructed with an
expiry is never interruptable, one constructed without is always
interruptable, and advancing any animation (even past termination)
never changes its interruptability; as a plain function of the state,
`is_interruptable` is pure. -/
theorem sparkle_interruptable_invariant :
    (∀ now colour ttl,
      (SparkleAnimation.new now colour (some ttl)).isInterruptable = false) ∧
    (∀ now colour,
      (SparkleAnimation.new now colour none).isInterruptable = true) ∧
    (∀ now s, ((SparkleAnimation.next s now).2).isInterruptable = s.isInterruptable) ∧
    (∀ now a, is_interruptable (next_buffer now a).2 = is_interruptable a) := by
  refine ⟨fun now colour ttl => rfl, fun now colour => rfl, fun now s => ?_,
    next_buffer_preserves_interruptable⟩
  simp only [SparkleAnimation.next]
  cases hexp : s.expires with
  | none => simp [SparkleAnimation.isInterruptable, hexp]
  | some exp =>
    by_cases h : now < exp <;> simp [SparkleAnimation.isInterruptable, hexp, h]

/-- C1, scheduler swap rule: on a tick while running, if the current
animation is interruptable and the queue is non-empty, the emitted
frame is the one produced by the queue's head `a` (the frame computed
from the old current animation is discarded), `a`'s advanced state
becomes the current animation, and `a` is removed from the queue (so a
singleton queue becomes empty). -/
theorem scheduler_swap_rule (now : Nat) (st : CoordState)
    (a : Animation) (rest : List Animation)
    (hrun : st.running = true) (hq : st.queue = a :: rest)
    (hint : is_interruptable st.current = true) :
    (tickStep now st).1.emitted = (next_buffer now a).1 ∧
    (tickStep now st).2.current = (next_buffer now a).2 ∧
    (tickStep now st).2.queue = rest := by
  have hpres := next_buffer_preserves_interruptable now st.current
  rcases hnb : next_buffer now st.current with ⟨buf, cur1⟩
  rw [hnb] at hpres
  have hcur1 : is_interruptable cur1 = true := by rw [hpres, hint]
  rcases hnb2 : next_buffer now a with ⟨b2, cur2⟩
  cases buf <;> simp [tickStep, hrun, hq, hnb, hnb2, hcur1]

/-- Witness for C1: an interruptable (no-ttl) green sparkle is swapped
out for the single queued blue sparkle, which is dequeued. -/
theorem scheduler_swap_rule_witness :
    (tickStep 5 ⟨true,
        [Animation.Sparkle (SparkleAnimation.new 0 ⟨0, 0, 255⟩ (some 2000))],
        Animation.Sparkle (SparkleAnimation.new 0 ⟨0, 255, 0⟩ none),
        10, false⟩).1.emitted =
      (next_buffer 5 (Animation.Sparkle (SparkleAnimation.new 0 ⟨0, 0, 255⟩ (some 2000)))).1 ∧
    (tickStep 5 ⟨true,
        [Animation.Sparkle (SparkleAnimation.new 0 ⟨0, 0, 255⟩ (some 2000))],
        Animation.Sparkle (SparkleAnimation.new 0 ⟨0, 255, 0⟩ none),
        10, false⟩).2.current =
      (next_buffer 5 (Animation.Sparkle (SparkleAnimation.new 0 ⟨0, 0, 255⟩ (some 2000)))).2 ∧
    (tickStep 5 ⟨true,
        [Animation.Sparkle (SparkleAnimation.new 0 ⟨0, 0, 255⟩ (some 2000))],
        Animation.Sparkle (SparkleAnimation.new 0 ⟨0, 255, 0⟩ none),
        10, false⟩).2.queue = [] :=
  scheduler_swap_rule 5 _
    (Animation.Sparkle (SparkleAnimation.new 0 ⟨0, 0, 255⟩ (some 2000))) []
    rfl rfl rfl

/-- C2, scheduler non-swap rule: on a tick while running, if the
current animation is not interruptable and still produces a frame,
that frame is emitted, the queue (and in particular its head) is left
unchanged, and the current animation is merely advanced; moreover the
queue shrinks on a tick only if the current animation was interruptable
or produced no frame, so a pending animation is never lost by the
interruption check. -/
theorem scheduler_non_swap_rule :
    (∀ (now : Nat) (st : CoordState) (b : LedBuffer),
      st.running = true →
      is_interruptable st.current = false →
      (next_buffer now st.current).1 = some b →
      (tickStep now st).1.emitted = some b ∧
      (tickStep now st).2.queue = st.queue ∧
      (tickStep now st).2.current = (next_buffer now st.current).2) ∧
    (∀ (now : Nat) (st : CoordState),
      st.running = true →
      (tickStep now st).2.queue ≠ st.queue →
      is_interruptable st.current = true ∨ (next_buffer now st.current).1 = none) := by
  refine ⟨tickStep_keep, fun now st hrun hch => ?_⟩
  by_contra hcon
  push_neg at hcon
  obtain ⟨hint, hnone⟩ := hcon
  have hint2 : is_interruptable st.current = false := by
    cases hi : is_interruptable st.current
    · rfl
    · exact absurd hi hint
  obtain ⟨b, hb⟩ := Option.ne_none_iff_exists.mp hnone
  exact hch (tickStep_keep now st b hrun hint2 hb.symm).2.1

/-- Witness for C2: a non-interruptable green sparkle (expiring at tick
1000) keeps the queued blue sparkle waiting at tick 5. -/
theorem scheduler_non_swap_rule_witness :
    (tickStep 5 ⟨true,
        [Animation.Sparkle (SparkleAnimation.new 0 ⟨0, 0, 255⟩ none)],
        Animation.Sparkle (SparkleAnimation.new 0 ⟨0, 255, 0⟩ (some 1000)),
        10, false⟩).1.emitted =
      some ((next_buffer 5
        (Animation.Sparkle (SparkleAnimation.new 0 ⟨0, 255, 0⟩ (some 1000)))).1.getD []) ∧
    (tickStep 5 ⟨true,
        [Animation.Sparkle (SparkleAnimation.new 0 ⟨0, 0, 255⟩ none)],
        Animation.Sparkle (SparkleAnimation.new 0 ⟨0, 255, 0⟩ (some 1000)),
        10, false⟩).2.queue =
      [Animation.Sparkle (SparkleAnimation.new 0 ⟨0, 0, 255⟩ none)] :=
  ⟨(scheduler_non_swap_rule.1 5
      ⟨true, [Animation.Sparkle (SparkleAnimation.new 0 ⟨0, 0, 255⟩ none)],
        Animation.Sparkle (SparkleAnimation.new 0 ⟨0, 255, 0⟩ (some 1000)), 10, false⟩
      ((next_buffer 5
        (Animation.Sparkle (SparkleAnimation.new 0 ⟨0, 255, 0⟩ (some 1000)))).1.getD [])
      rfl rfl rfl).1,
   (scheduler_non_swap_rule.1 5
      ⟨true, [Animation.Sparkle (SparkleAnimation.new 0 ⟨0, 0, 255⟩ none)],
        Animation.Sparkle (SparkleAnimation.new 0 ⟨0, 255, 0⟩ (some 1000)), 10, false⟩
      ((next_buffer 5
        (Animation.Sparkle (SparkleAnimation.new 0 ⟨0, 255, 0⟩ (some 1000)))).1.getD [])
      rfl rfl rfl).2.1⟩

/-- C5, hold-sequence mode restoration: on both exit paths of the
button hold sequence the final configuration's `rgb_mode` equals the
mode saved before the hold, and no configuration value reached during
the sequence ever differs from the original in `rgb_brightness` or
`rgb_rate_modifier`. -/
theorem hold_sequence_restores_mode (cfg : RgbConfig) (r : HoldRelease) :
    (holdSequenceFinal cfg r).rgb_mode = cfg.rgb_mode ∧
    ((holdSequenceTrace cfg r).all fun c =>
      decide (c.rgb_brightness = cfg.rgb_brightness) &&
      decide (c.rgb_rate_modifier = cfg.rgb_rate_modifier)) = true := by
  cases r <;> simp [holdSequenceFinal, holdSequenceTrace, RgbConfig.set_mode]

/-- C6, redundant-write suppression: an iteration whose computed colour
equals the previously written one issues no hardware write, and two
consecutive iterations computing the same colour (different from the
previous one) issue exactly one write. -/
theorem redundant_write_suppression (prev c : RGB8) :
    (c = prev → (neopixelIteration prev (some c)).1 = none) ∧
    (c ≠ prev → neopixelWrites prev [some c, some c] = [c]) := by
  constructor
  · intro h
    simp [neopixelIteration, h]
  · intro h
    simp [neopixelWrites, neopixelIteration, h]

/-- Witness for C6: from black, colour black is suppressed; the pair
(red, red) produces the single write [red]. -/
theorem redundant_write_suppression_witness :
    (neopixelIteration ⟨0, 0, 0⟩ (some ⟨0, 0, 0⟩)).1 = none ∧
    neopixelWrites ⟨0, 0, 0⟩ [some ⟨255, 0, 0⟩, some ⟨255, 0, 0⟩] = [⟨255, 0, 0⟩] :=
  ⟨(redundant_write_suppression ⟨0, 0, 0⟩ ⟨0, 0, 0⟩).1 rfl,
   (redundant_write_suppression ⟨0, 0, 0⟩ ⟨255, 0, 0⟩).2 (by decide)⟩

/-- Counterexample for C10: with mode rate 5001 and the `VerySlow`
multiplier (1), the update period `5000 / (5001 * 1)` is zero, so the
rate-limiting test takes a remainder by zero (modelled as `none`, a
panic) — refuting the claim that the period is non-zero for every rate
value. -/
theorem rate_period_zero_counterexample :
    updatePeriod 5001 RgbRate.VerySlow.val = some 0 ∧
    rateLimitedGate 0 5001 RgbRate.VerySlow.val = none := by
  decide

/-- C10 as amended: whenever `1 ≤ rate` and `rate * rate_multiplier ≤
5000`, the update period is non-zero and the rate-limiting test is a
well-defined remainder (no panic). -/
theorem rate_period_division_safe (rate : Nat) (m : RgbRate) (nowMs : Nat)
    (h1 : 1 ≤ rate) (h2 : rate * m.val ≤ 5000) :
    updatePeriod rate m.val = some (5000 / (rate * m.val)) ∧
    0 < 5000 / (rate * m.val) ∧
    rateLimitedGate nowMs rate m.val =
      some (decide (nowMs % (5000 / (rate * m.val)) = 0)) := by
  have hv : 1 ≤ m.val := by cases m <;> simp [RgbRate.val]
  have hpos : 0 < rate * m.val := Nat.mul_pos h1 hv
  have hmod : (rate * m.val) % 2 ^ 32 = rate * m.val :=
    Nat.mod_eq_of_lt (by omega)
  have hdivpos : 0 < 5000 / (rate * m.val) := Nat.div_pos h2 hpos
  have hup : updatePeriod rate m.val = some (5000 / (rate * m.val)) := by
    simp only [updatePeriod]
    rw [hmod, if_neg (Nat.pos_iff_ne_zero.mp hpos)]
  refine ⟨hup, hdivpos, ?_⟩
  simp only [rateLimitedGate, hup]
  rw [if_neg (Nat.pos_iff_ne_zero.mp hdivpos)]

/-- Witness for the amended C10 at rate 10, multiplier `Moderate` (7),
time 140 ms: the period is 71 and the gate evaluates without fault. -/
theorem rate_period_division_safe_witness :
    updatePeriod 10 RgbRate.Moderate.val = some (5000 / (10 * RgbRate.Moderate.val)) ∧
    0 < 5000 / (10 * RgbRate.Moderate.val) ∧
    rateLimitedGate 140 10 RgbRate.Moderate.val =
      some (decide (140 % (5000 / (10 * RgbRate.Moderate.val)) = 0)) :=
  rate_period_division_safe 10 RgbRate.Moderate 140 (by decide) (by decide)

/-- C9 evaluated at the failing input 4.0: the argument 4 is already
reduced (π < 4 < 2π), the mirrored polynomial value whose negation the
sign correction should return is strictly positive, yet `sin` returns
exactly 0 — because the multiplier −1.0 passes through the saturating
`as u8` cast and becomes 0 — instead of a negative value. -/
theorem sin_sign_correction_bug :
    piF64 < 4 ∧ (4 : ℚ) < tauF64 ∧
    0 < sinPoly (4 - piF64) ∧
    sinF64 4 = 0 := by
  have hpi : piF64 < 4 := by norm_num [piF64]
  have htau : (4 : ℚ) < tauF64 := by norm_num [tauF64]
  refine ⟨hpi, htau, ?_, ?_⟩
  · have f3 : factorial_reciprocal 3 = 1 / 6 := by
      norm_num [factorial_reciprocal, show factorial 3 = 6 from rfl]
    have f5 : factorial_reciprocal 5 = 1 / 120 := by
      norm_num [factorial_reciprocal, show factorial 5 = 120 from rfl]
    have f7 : factorial_reciprocal 7 = 1 / 5040 := by
      norm_num [factorial_reciprocal, show factorial 7 = 5040 from rfl]
    have f9 : factorial_reciprocal 9 = 1 / 362880 := by
      norm_num [factorial_reciprocal, show factorial 9 = 362880 from rfl]
    norm_num [sinPoly, f3, f5, f7, f9, piF64]
  · have hred : reduceTau 4 = 4 := by
      unfold reduceTau
      rw [dif_neg (by norm_num [tauF64] : ¬ tauF64 ≤ (4 : ℚ))]
    have hcast : f64ToU8 (-1) = 0 := by
      simp [f64ToU8]
    simp only [sinF64, hred, if_pos hpi, hcast, Nat.cast_zero, zero_mul]
